import Mathlib

/-!
Verification of the aggregation-and-cache engine of the SetScrape repository
(`backend/aggregation_service/main.py`) against its specification.

The Python source is shallowly embedded: every function below is translated
from the source file, keeping the source names.  Modelling conventions:

* Python strings are Lean `String`; `str.split(sep)` is `pySplit` below
  (defined character by character, so that general lemmas about splitting
  are provable).
* A pydantic `datetime` field is modelled by the `YYYY-MM-DD` string it
  renders to when the code builds a concert key from it
  (`item.date.strftime("%Y-%m-%d")`, or `str(item.date)[:10]` on the duck
  typed branch); an absent date is `none`.  `datetime.strptime(s, "%Y-%m-%d")`
  is `parseYMD`, and instants (`datetime.utcnow()`, `timestamp()`) are `Int`
  seconds on one timeline, with a parsed concert date placed on that timeline
  by `dateToSec` (proleptic Gregorian ordinal, as `datetime.toordinal`).
* Python truthiness on optional strings (`x or default`) is `strOr` /
  `strOrNone` / `strTruthy`: both `None` and `""` are falsy.
* The upstream browse-service call made with `httpx` is an oracle argument
  of type `FetchResult`: `ok items` models a 2xx response whose parsed
  payload is `items`; `statusError` models `raise_for_status` raising
  `httpx.HTTPStatusError` on a non-2xx response; `timeoutError` models
  `httpx.TimeoutException` (which is NOT a subclass of `HTTPStatusError`).
  Functions that may consult the oracle also return a `Bool` recording
  whether the upstream call was issued.
* The module level `browse_cache` dict is an explicit association list with
  Python dict semantics (insertion order kept, assignment replaces in
  place); `defaultdict(list)` grouping is `accumBy` with the same
  insertion-order semantics.
* Bookkeeping output fields whose value is a fresh `utcnow()` rendering
  (`indexed_at`, `last_updated`, per recording `created_at`) carry no
  information about the inputs and are elided from `ConcertGroup`; the
  output `recordings` dicts are the per-member projection of the stored
  member list (`ConcertGroup.members`), which is what the claims quantify
  over.
-/

namespace SetScrape

/-! ## Python `str.split` -/

/-- Split a character list at every occurrence of `sep`, keeping empty
chunks, as Python `str.split(sep)` does (`"".split(sep) == [""]`). -/
def splitCh (sep : Char) : List Char → List (List Char)
  | [] => [[]]
  | c :: cs =>
    if c = sep then [] :: splitCh sep cs
    else
      match splitCh sep cs with
      | [] => [[c]]
      | p :: ps => (c :: p) :: ps

/-- Python `s.split(sep)` for a one-character separator. -/
def pySplit (sep : Char) (s : String) : List String :=
  (splitCh sep s.data).map (fun cs => String.mk cs)

/-! ## Python truthiness on optional strings -/

/-- Python `x or default` for an optional string `x`: `None` and `""` are
falsy. -/
def strOr (x : Option String) (default : String) : String :=
  match x with
  | some s => if s = "" then default else s
  | none => default

/-- Python `x or None` for an optional string `x`. -/
def strOrNone (x : Option String) : Option String :=
  match x with
  | some s => if s = "" then none else some s
  | none => none

/-- Python truthiness of an optional string. -/
def strTruthy (x : Option String) : Bool :=
  match x with
  | some s => s ≠ ""
  | none => false

/-! ## Dates: `datetime.strptime(s, "%Y-%m-%d")` and the timeline -/

/-- A calendar date at day granularity (the `.date()` part of a parsed
`datetime`). -/
structure Date where
  year : Nat
  month : Nat
  day : Nat
  deriving DecidableEq

/-- Gregorian leap year. -/
def isLeap (y : Nat) : Bool :=
  (y % 4 == 0 && y % 100 != 0) || y % 400 == 0

/-- Days in a month of a given year. -/
def daysInMonth (y m : Nat) : Nat :=
  if m = 2 then (if isLeap y then 29 else 28)
  else if m = 4 ∨ m = 6 ∨ m = 9 ∨ m = 11 then 30
  else 31

/-- A non-empty all-digit chunk read as a decimal `Nat`. -/
def chunkToNat? (cs : List Char) : Option Nat :=
  if cs ≠ [] ∧ cs.all Char.isDigit then
    some (cs.foldl (fun n c => 10 * n + (c.toNat - 48)) 0)
  else none

/-- `datetime.strptime(s, "%Y-%m-%d")`: the `%Y` directive matches exactly
four digits, `%m` and `%d` one or two; the resulting numbers must form a real
calendar date with year at least `datetime.MINYEAR = 1`.  Returns the parsed
date, `none` where CPython raises `ValueError`. -/
def parseYMD (s : String) : Option Date :=
  match splitCh '-' s.data with
  | [ys, ms, ds] =>
    if ys.length = 4 ∧ ms.length ≤ 2 ∧ ds.length ≤ 2 then
      match chunkToNat? ys, chunkToNat? ms, chunkToNat? ds with
      | some y, some m, some d =>
        if 1 ≤ y ∧ 1 ≤ m ∧ m ≤ 12 ∧ 1 ≤ d ∧ d ≤ daysInMonth y m then
          some ⟨y, m, d⟩
        else none
      | _, _, _ => none
    else none
  | _ => none

/-- Days from March-counted month table: days before month `m` in year `y`. -/
def daysBeforeMonth (y m : Nat) : Nat :=
  ((List.range (m - 1)).map (fun i => daysInMonth y (i + 1))).sum

/-- `datetime.toordinal`: day number in the proleptic Gregorian calendar,
with `0001-01-01` as day 1. -/
def toOrdinal (d : Date) : Nat :=
  let y := d.year - 1
  (365 * y + y / 4 + y / 400 + daysBeforeMonth d.year d.month + d.day) - y / 100

/-- A midnight instant on the shared timeline, in seconds. -/
def dateToSec (d : Date) : Int :=
  86400 * (toOrdinal d : Int)

/-! ## Data model (`shared/models.py`) -/

/-- `ArchiveTrack` of `shared/models.py`. -/
structure ArchiveTrack where
  track_number : Option Int
  title : String
  filename : String
  file_format : Option String
  file_size : Option Int
  duration : Option Int
  download_url : Option String
  deriving DecidableEq

/-- `ArchiveItem` of `shared/models.py`.  The `date` field holds the
`YYYY-MM-DD` rendering of the pydantic `datetime` (see the header comment);
numeric fields are `ge=0` so they are `Nat`. -/
structure ArchiveItem where
  identifier : String
  title : String
  artist : Option String := none
  date : Option String := none
  venue : Option String := none
  location : Option String := none
  description : Option String := none
  source : Option String := none
  taper : Option String := none
  lineage : Option String := none
  total_tracks : Nat := 0
  total_size : Nat := 0
  tracks : Option (List ArchiveTrack) := none
  downloads : Nat := 0
  deriving DecidableEq

/-! ## `extract_concert_key` -/

/-- `extract_concert_key` of `aggregation_service/main.py`: artist defaults
to `"Unknown Artist"` (Python truthiness), the date segment is the rendered
date or `"unknown"`, joined with `"|"`. -/
def extract_concert_key (item : ArchiveItem) : String :=
  let artist := strOr item.artist "Unknown Artist"
  let date_str :=
    match item.date with
    | some d => d
    | none => "unknown"
  artist ++ "|" ++ date_str

/-! ## Insertion-ordered accumulation (Python `dict` / `defaultdict`) -/

/-- Update the entry of `k` in an insertion-ordered association list with
`f`, or append `(k, v0)` when `k` has no entry yet — the semantics of a
Python `dict` update at one key. -/
def upsert {β : Type} (k : String) (v0 : β) (f : β → β) :
    List (String × β) → List (String × β)
  | [] => [(k, v0)]
  | (k', b) :: rest =>
    if k' = k then (k', f b) :: rest else (k', b) :: upsert k v0 f rest

/-- Fold a sequence into an insertion-ordered keyed accumulator: for each
element, update its key with `f`, starting a fresh entry with `v0`.
`defaultdict(list)` grouping and a counting dict are both instances. -/
def accumBy {α β : Type} (key : α → String) (v0 : α → β) (f : α → β → β)
    (xs : List α) : List (String × β) :=
  xs.foldl (fun acc x => upsert (key x) (v0 x) (f x) acc) []

/-- The distinct values of `ks` in first-appearance order (the iteration
order of a Python dict keyed by them). -/
def firstApp (ks : List String) : List String :=
  ks.foldl (fun acc k => if k ∈ acc then acc else acc ++ [k]) []

/-- The distinct keys of `xs` under `key`, in first-appearance order. -/
def firstAppBy {α : Type} (key : α → String) (xs : List α) : List String :=
  firstApp (xs.map key)

/-- The declarative reading of `accumBy`: one entry per distinct key in
first-appearance order, holding a summary of all elements with that key. -/
def accumSpec {α β : Type} (key : α → String) (summary : List α → β)
    (xs : List α) : List (String × β) :=
  (firstAppBy key xs).map (fun k => (k, summary (xs.filter (fun x => key x = k))))

/-- `concert_groups` after the grouping loop of
`group_recordings_by_concert`: items bucketed by concert key, buckets in
first-appearance order, each bucket in input order. -/
def buildBuckets (items : List ArchiveItem) : List (String × List ArchiveItem) :=
  accumBy extract_concert_key (fun it => [it]) (fun it l => l ++ [it]) items

/-! ## Venue resolution (lines 103–118 of the source) -/

/-- The venue of a recording when it is usable: present, non-empty and not
the literal `"Unknown Venue"` (the loop guard
`if recording.venue and recording.venue != "Unknown Venue"`). -/
def usableVenueOf (r : ArchiveItem) : Option String :=
  match r.venue with
  | some v => if v ≠ "" ∧ v ≠ "Unknown Venue" then some v else none
  | none => none

/-- The usable venue strings of a bucket, in recording order. -/
def usableVenues (recs : List ArchiveItem) : List String :=
  recs.filterMap usableVenueOf

/-- `venue_counts`: an insertion-ordered frequency dict of the usable
venues. -/
def venueCounts (recs : List ArchiveItem) : List (String × Nat) :=
  accumBy id (fun _ => 1) (fun _ c => c + 1) (usableVenues recs)

/-- Python `max(venue_counts, key=venue_counts.get)` guarded by
`if venue_counts:`: the first key, in insertion order, attaining the
maximum count (`max` keeps the incumbent unless strictly beaten). -/
def maxByCount (counts : List (String × Nat)) : Option String :=
  match counts.foldl
      (fun best p =>
        match best with
        | none => some p
        | some q => if p.2 > q.2 then some p else some q)
      none with
  | some p => some p.1
  | none => none

/-- The fallback loop: the first usable venue in recording order. -/
def firstUsableVenue (recs : List ArchiveItem) : Option String :=
  (usableVenues recs).head?

/-- Venue resolution for one bucket: most common usable venue, else the
first usable venue, else `None`. -/
def resolveVenue (recs : List ArchiveItem) : Option String :=
  match maxByCount (venueCounts recs) with
  | some v => some v
  | none => firstUsableVenue recs

/-- Proof-side reading of the `max` fold: starting from incumbent `b`, take
each element in turn and replace the incumbent only when strictly larger
under `f`. -/
def pickMax (f : String → Nat) (b : String) : List String → String
  | [] => b
  | v :: l => if f v > f b then pickMax f v l else pickMax f b l

/-- A minimal recording carrying only a venue, for concrete venue
resolution examples. -/
def venueItem (id v : String) : ArchiveItem :=
  { identifier := id, title := id, venue := some v }

/-! ## `group_recordings_by_concert` -/

/-- One emitted concert instance (the dict built at lines 134–169).
`members` is the Python variable `recordings` (the bucket); the output
`recordings` field of the dict is its per-member projection, so membership
of a recording in a group is membership in `members`. -/
structure ConcertGroup where
  concert_key : String
  artist : String
  date : Date
  venue : Option String
  location : Option String
  title : String
  description : String
  source : String
  taper : Option String
  lineage : Option String
  total_recordings : Nat
  total_tracks : Nat
  total_size : Nat
  total_downloads : Nat
  members : List ArchiveItem
  deriving DecidableEq

/-- The body of the emission loop for one bucket `(key, recordings)`:
`none` where the source says `continue` (empty bucket, key not splitting
into exactly two parts, date segment failing `strptime`). -/
def emitConcert (key : String) (recordings : List ArchiveItem) :
    Option ConcertGroup :=
  match recordings with
  | [] => none
  | base :: _ =>
    match pySplit '|' key with
    | [artist, date_str] =>
      match parseYMD date_str with
      | none => none
      | some concert_date =>
        let venue := resolveVenue recordings
        let title_parts :=
          [artist]
            ++ (match venue with
                | some v => if v = "" then [] else [v]
                | none => [])
            ++ (match base.location with
                | some l => if l = "" then [] else [l]
                | none => [])
        some {
          concert_key := key
          artist := artist
          date := concert_date
          venue := venue
          location := base.location
          title := String.intercalate "-" title_parts
          description := strOr base.description ("Live performance by " ++ artist)
          source := strOr base.source "Multiple sources available"
          taper := strOrNone base.taper
          lineage := strOrNone base.lineage
          total_recordings := recordings.length
          total_tracks := (recordings.map ArchiveItem.total_tracks).sum
          total_size := (recordings.map ArchiveItem.total_size).sum
          total_downloads := (recordings.map ArchiveItem.downloads).sum
          members := recordings
        }
    | _ => none

/-- `group_recordings_by_concert` of `aggregation_service/main.py`: bucket
by concert key in first-appearance order, then emit one concert per
surviving bucket. -/
def group_recordings_by_concert (items : List ArchiveItem) : List ConcertGroup :=
  (buildBuckets items).filterMap (fun p => emitConcert p.1 p.2)

/-- A concrete concert group, for concrete pagination and cache
scenarios. -/
def sampleGroup : ConcertGroup :=
  { concert_key := "Phish|1995-08-16", artist := "Phish",
    date := ⟨1995, 8, 16⟩, venue := none, location := none, title := "Phish",
    description := "Live performance by Phish",
    source := "Multiple sources available", taper := none, lineage := none,
    total_recordings := 1, total_tracks := 0, total_size := 0,
    total_downloads := 0, members := [] }

/-- A concert key survives emission: it splits on `"|"` into exactly two
parts and its date segment parses as `YYYY-MM-DD`. -/
def goodKey (k : String) : Bool :=
  match pySplit '|' k with
  | [_, date_str] => (parseYMD date_str).isSome
  | _ => false

/-! ## The result cache (`browse_cache`, `get_cache_key`, `is_cache_valid`,
`cleanup_cache`) -/

/-- `CACHE_DURATION = 300` seconds. -/
def CACHE_DURATION : Int := 300

/-- One entry of `browse_cache`: the dict stored at lines 308–312. -/
structure CacheEntry where
  data : List ConcertGroup
  timestamp : Int
  raw_items : List ArchiveItem
  deriving DecidableEq

/-- `browse_cache`: a Python dict, modelled as an insertion-ordered
association list with unique keys. -/
abbrev Cache : Type := List (String × CacheEntry)

/-- Python `browse_cache.get(key)`. -/
def lookupCache (cache : Cache) (k : String) : Option CacheEntry :=
  match cache with
  | [] => none
  | (k', e) :: rest => if k' = k then some e else lookupCache rest k

/-- Python `browse_cache[key] = entry`: replace in place, else append. -/
def storeCache (cache : Cache) (k : String) (e : CacheEntry) : Cache :=
  match cache with
  | [] => [(k, e)]
  | (k', e') :: rest =>
    if k' = k then (k, e) :: rest else (k', e') :: storeCache rest k e

/-- The normalized parameter dict built at lines 237–247 (the request flag
`filter_by_concert_date` is not among the recognized parameters, and the
page size sent upstream is inflated threefold). -/
structure Params where
  query : Option String
  date_range : Option String
  artist : Option String
  venue : Option String
  page : Nat
  per_page : Nat
  sort_by : String
  sort_order : String
  deriving DecidableEq

/-- A quoted JSON string (the request values never contain characters that
`json.dumps` escapes, so escaping is elided). -/
def jsonStr (s : String) : String :=
  "\"" ++ s ++ "\""

/-- One `[name, value]` pair as `json.dumps` renders it. -/
def jsonPair (name value : String) : String :=
  "[" ++ jsonStr name ++ ", " ++ value ++ "]"

/-- `get_cache_key`: `json.dumps(sorted(params.items()))`.  `sorted` puts
the present keys in alphabetical order (artist, date_range, page, per_page,
query, sort_by, sort_order, venue); keys with value `None` were dropped at
line 247. -/
def get_cache_key (p : Params) : String :=
  let pairs :=
    (match p.artist with
     | some a => [jsonPair "artist" (jsonStr a)]
     | none => [])
      ++ (match p.date_range with
          | some d => [jsonPair "date_range" (jsonStr d)]
          | none => [])
      ++ [jsonPair "page" (toString p.page),
          jsonPair "per_page" (toString p.per_page)]
      ++ (match p.query with
          | some q => [jsonPair "query" (jsonStr q)]
          | none => [])
      ++ [jsonPair "sort_by" (jsonStr p.sort_by),
          jsonPair "sort_order" (jsonStr p.sort_order)]
      ++ (match p.venue with
          | some v => [jsonPair "venue" (jsonStr v)]
          | none => [])
  "[" ++ String.intercalate ", " pairs ++ "]"

/-- `is_cache_valid`: a missing (falsy) entry is invalid, otherwise the
entry is valid iff strictly younger than `CACHE_DURATION` seconds. -/
def is_cache_valid (now : Int) (cache_entry : Option CacheEntry) : Bool :=
  match cache_entry with
  | none => false
  | some e => now - e.timestamp < CACHE_DURATION

/-- `cleanup_cache`: delete every entry aged `CACHE_DURATION` or more. -/
def cleanup_cache (now : Int) (cache : Cache) : Cache :=
  List.filter (fun p => !(now - p.2.timestamp ≥ CACHE_DURATION)) cache

/-! ## The listing path (`browse_concerts`) -/

/-- The upstream browse-service call: a 2xx response with parsed items, a
non-2xx response (`httpx.HTTPStatusError` out of `raise_for_status`), or a
timeout (`httpx.TimeoutException`, not an `HTTPStatusError`). -/
inductive FetchResult where
  | ok (items : List ArchiveItem)
  | statusError
  | timeoutError
  deriving DecidableEq

/-- `HTTPException(status_code, detail)`. -/
structure HTTPException where
  status_code : Nat
  detail : String
  deriving DecidableEq

/-- The query parameters of a `/concerts` listing request, with FastAPI
defaults `page=1, per_page=20, sort_by="date", sort_order="desc",
filter_by_concert_date=False` already applied. -/
structure BrowseRequest where
  query : Option String := none
  date_range : Option String := none
  artist : Option String := none
  venue : Option String := none
  page : Nat := 1
  per_page : Nat := 20
  sort_by : String := "date"
  sort_order : String := "desc"
  filter_by_concert_date : Bool := false
  deriving DecidableEq

/-- Lines 237–247: the parameter dict sent to the browse service and
fingerprinted for the cache.  `per_page` is tripled; the
`filter_by_concert_date` flag is not included. -/
def buildParams (req : BrowseRequest) : Params :=
  { query := req.query
    date_range := req.date_range
    artist := req.artist
    venue := req.venue
    page := req.page
    per_page := req.per_page * 3
    sort_by := req.sort_by
    sort_order := req.sort_order }

/-- Lines 276–285: the date-range token to a day count; a token outside
`{7d, 30d, 90d, 1y}` defaults to 30 days. -/
def rangeDays (token : String) : Int :=
  if token = "7d" then 7
  else if token = "30d" then 30
  else if token = "90d" then 90
  else if token = "1y" then 365
  else 30

/-- Lines 274–301: keep the concerts whose date lies in
`[now - range, now]`.  (Every freshly grouped concert carries a `datetime`
date, so the `isinstance`/`hasattr` dispatch always lands on the branch
that keeps the value as is.) -/
def filterByConcertDate (now : Int) (token : String)
    (concerts : List ConcertGroup) : List ConcertGroup :=
  let end_date := now
  let start_date := now - rangeDays token * 86400
  concerts.filter (fun c =>
    decide (start_date ≤ dateToSec c.date) && decide (dateToSec c.date ≤ end_date))

/-- The `/concerts` response dict built at lines 333–339. -/
structure BrowseResponse where
  total : Nat
  page : Nat
  per_page : Nat
  total_pages : Nat
  results : List ConcertGroup
  deriving DecidableEq

/-- Python `str.lower` on one character (ASCII case fold; the artist and
venue strings the engine compares are ASCII). -/
def lowerChar (c : Char) : Char :=
  if 65 ≤ c.toNat ∧ c.toNat ≤ 90 then Char.ofNat (c.toNat + 32) else c

/-- Python `str.lower`. -/
def pyLower (s : String) : String :=
  String.mk (s.data.map lowerChar)

/-- Python string comparison: lexicographic on code points, a proper
prefix sorting first. -/
def lexLe : List Char → List Char → Bool
  | [], _ => true
  | _ :: _, [] => false
  | c :: cs, d :: ds => if c = d then lexLe cs ds else decide (c < d)

/-- Python `a <= b` on strings. -/
def pyStrLe (a b : String) : Bool :=
  lexLe a.data b.data

/-- Lines 317–326: Python `list.sort(key=..., reverse=...)`, a stable sort
that is descending when `sort_order == "desc"`.  `insertionSort` with the
reflexive comparator has exactly the stable semantics of CPython sorting. -/
def pySortBy {κ : Type} (le : κ → κ → Bool) (key : ConcertGroup → κ)
    (reverse : Bool) (l : List ConcertGroup) : List ConcertGroup :=
  if reverse then List.insertionSort (fun a b => le (key b) (key a)) l
  else List.insertionSort (fun a b => le (key a) (key b)) l

/-- The sort-field dispatch of lines 318–326: `date` and any unknown field
sort by the concert date, `artist` and `venue` case-insensitively, with a
missing venue as `""`. -/
def sortConcerts (sort_by sort_order : String) (concerts : List ConcertGroup) :
    List ConcertGroup :=
  if sort_by = "date" then
    pySortBy (fun a b : Int => a ≤ b) (fun c => dateToSec c.date)
      (sort_order = "desc") concerts
  else if sort_by = "artist" then
    pySortBy pyStrLe (fun c => pyLower c.artist) (sort_order = "desc") concerts
  else if sort_by = "venue" then
    pySortBy pyStrLe (fun c => pyLower (c.venue.getD ""))
      (sort_order = "desc") concerts
  else
    pySortBy (fun a b : Int => a ≤ b) (fun c => dateToSec c.date)
      (sort_order = "desc") concerts

/-- Lines 317–339: sort, paginate and assemble the response.  (`list.sort`
is in place, so `len(concerts)` reads the length of the sorted list.) -/
def assembleResponse (page per_page : Nat) (sort_by sort_order : String)
    (concerts : List ConcertGroup) : BrowseResponse :=
  let sorted := sortConcerts sort_by sort_order concerts
  let start_idx := (page - 1) * per_page
  { total := sorted.length
    page := page
    per_page := per_page
    total_pages := (sorted.length + per_page - 1) / per_page
    results := (sorted.drop start_idx).take per_page }

/-- The cache-miss branch of `browse_concerts` (lines 257–315 and the
handlers at 341–346): fetch, group, optionally filter by concert date,
store, sweep.  A non-2xx upstream response is caught as
`httpx.HTTPStatusError` and becomes 502; a timeout is not an
`HTTPStatusError`, falls to the generic `except Exception` handler and
becomes 500. -/
def browseFetchPath (cache : Cache) (now : Int) (req : BrowseRequest)
    (cache_key : String) (fetch : FetchResult) :
    Except HTTPException (BrowseResponse × Cache) :=
  match fetch with
  | .statusError => .error ⟨502, "Browse service unavailable"⟩
  | .timeoutError => .error ⟨500, "Failed to aggregate concerts"⟩
  | .ok raw_items =>
    let concerts := group_recordings_by_concert raw_items
    let concerts :=
      match req.date_range with
      | some token =>
        if token ≠ "" ∧ req.filter_by_concert_date then
          filterByConcertDate now token concerts
        else concerts
      | none => concerts
    let cache1 := storeCache cache cache_key ⟨concerts, now, raw_items⟩
    let cache2 := cleanup_cache now cache1
    .ok (assembleResponse req.page req.per_page req.sort_by req.sort_order concerts,
         cache2)

/-- `browse_concerts` of `aggregation_service/main.py`: on a valid cache
hit reuse the stored concert list unchanged (no date filtering is applied
on this path), otherwise take the fetch path.  (In Python the `list.sort`
at lines 317–326 mutates, through aliasing, the very list object held by
the cache entry; the mutation is a permutation with pairwise-distinct
concert keys, so no observable behaviour treated here depends on it, and
the model keeps the stored list as stored.) -/
def browse_concerts (cache : Cache) (now : Int) (req : BrowseRequest)
    (fetch : FetchResult) : Except HTTPException (BrowseResponse × Cache) :=
  let cache_key := get_cache_key (buildParams req)
  match lookupCache cache cache_key with
  | some e =>
    if is_cache_valid now (some e) then
      .ok (assembleResponse req.page req.per_page req.sort_by req.sort_order e.data,
           cache)
    else browseFetchPath cache now req cache_key fetch
  | none => browseFetchPath cache now req cache_key fetch

/-- A listing request that filters by concert date over the last 30 days
(all other parameters at their defaults). -/
def reqC2 : BrowseRequest :=
  { date_range := some "30d", filter_by_concert_date := true }

/-- The same parameters with the flag unset. -/
def reqC2off : BrowseRequest :=
  { date_range := some "30d", filter_by_concert_date := false }

/-- A concrete "now": midnight 2024-01-01 on the shared timeline. -/
def nowC2 : Int :=
  dateToSec ⟨2024, 1, 1⟩

/-- A concert dated 1990-01-01 — far outside every supported window. -/
def oldGroup : ConcertGroup :=
  { sampleGroup with concert_key := "Phish|1990-01-01", date := ⟨1990, 1, 1⟩ }

/-- A cache holding, under the fingerprint shared by `reqC2` and
`reqC2off`, a fresh entry whose data was stored without concert-date
filtering. -/
def cacheC2 : Cache :=
  [(get_cache_key (buildParams reqC2), ⟨[oldGroup], nowC2, []⟩)]

/-- A recording dated inside the 30-day window ending at `nowC2`. -/
def itemC2 : ArchiveItem :=
  { identifier := "x1", title := "t1", artist := some "Phish",
    date := some "2023-12-20" }

/-! ## The detail path (`get_concert_details`) -/

/-- Lines 355–367: scan the valid cache entries, in insertion order, for
the first stored concert whose key matches. -/
def findInCache (cache : Cache) (now : Int) (key : String) : Option ConcertGroup :=
  match cache with
  | [] => none
  | (_, e) :: rest =>
    if is_cache_valid now (some e) then
      match e.data.find? (fun c => c.concert_key = key) with
      | some c => some c
      | none => findInCache rest now key
    else findInCache rest now key

/-- Lines 398–410: an item matches the target date when its date is
present (a datetime is always truthy) and its day equals the target day;
a date rendering that does not parse is skipped (the `except ValueError:
continue` branch). -/
def itemMatchesDate (target : Date) (it : ArchiveItem) : Bool :=
  match it.date with
  | none => false
  | some ds =>
    match parseYMD ds with
    | some d => d = target
    | none => false

/-- `get_concert_details` of `aggregation_service/main.py`.  The returned
`Bool` records whether the upstream fetch at line 386 was issued.  Order of
events on a cache miss: split the key (400 before any fetch when it does
not have exactly two parts), issue the fetch (a failure there falls to the
generic handler: 500), and only then parse the date segment (400 on a
segment that is no `YYYY-MM-DD` date), filter, regroup and select. -/
def get_concert_details (cache : Cache) (now : Int) (concert_key : String)
    (fetch : FetchResult) : Except HTTPException ConcertGroup × Bool :=
  match findInCache cache now concert_key with
  | some c => (.ok c, false)
  | none =>
    match pySplit '|' concert_key with
    | [_artist, date_str] =>
      match fetch with
      | .statusError => (.error ⟨500, "Failed to get concert details"⟩, true)
      | .timeoutError => (.error ⟨500, "Failed to get concert details"⟩, true)
      | .ok raw_items =>
        match parseYMD date_str with
        | none => (.error ⟨400, "Invalid date format"⟩, true)
        | some target_date =>
          let matching_items := raw_items.filter (itemMatchesDate target_date)
          if matching_items.isEmpty then
            (.error ⟨404, "Concert not found"⟩, true)
          else
            match (group_recordings_by_concert matching_items).find?
                (fun c => c.concert_key = concert_key) with
            | some c => (.ok c, true)
            | none => (.error ⟨404, "Concert not found"⟩, true)
    | _ => (.error ⟨400, "Invalid concert key format"⟩, false)

/-! # Lemmas -/

/-! ## Splitting -/

theorem splitCh_ne_nil (sep : Char) (cs : List Char) : splitCh sep cs ≠ [] := by
  induction cs with
  | nil => simp [splitCh]
  | cons c cs ih =>
    simp only [splitCh]
    by_cases h : c = sep
    · simp [h]
    · simp only [if_neg h]
      rcases hs : splitCh sep cs with _ | ⟨p, ps⟩
      · exact absurd hs ih
      · simp [hs]

theorem splitCh_append_sep (sep : Char) (a b : List Char) :
    splitCh sep (a ++ sep :: b) = splitCh sep a ++ splitCh sep b := by
  induction a with
  | nil => simp [splitCh]
  | cons c a ih =>
    simp only [List.cons_append, splitCh]
    by_cases h : c = sep
    · simp [h, ih]
    · simp only [if_neg h, List.append_eq]
      rw [ih]
      rcases hs : splitCh sep a with _ | ⟨p, ps⟩
      · exact absurd hs (splitCh_ne_nil sep a)
      · simp [hs]

/-! ## First-appearance order -/

theorem firstApp_loop_mem (ks : List String) :
    ∀ (acc : List String) (x : String),
      x ∈ ks.foldl (fun acc k => if k ∈ acc then acc else acc ++ [k]) acc ↔
        x ∈ acc ∨ x ∈ ks := by
  induction ks with
  | nil => simp
  | cons k ks ih =>
    intro acc x
    simp only [List.foldl_cons]
    rw [ih]
    by_cases h : k ∈ acc
    · rw [if_pos h]
      constructor
      · rintro (hx | hx)
        · exact Or.inl hx
        · exact Or.inr (List.mem_cons_of_mem _ hx)
      · rintro (hx | hx)
        · exact Or.inl hx
        · rcases List.mem_cons.mp hx with rfl | hx
          · exact Or.inl h
          · exact Or.inr hx
    · rw [if_neg h]
      simp only [List.mem_append, List.mem_singleton, List.mem_cons]
      tauto

theorem firstApp_mem (ks : List String) (x : String) :
    x ∈ firstApp ks ↔ x ∈ ks := by
  unfold firstApp
  rw [firstApp_loop_mem]
  simp

theorem firstApp_loop_nodup (ks : List String) :
    ∀ acc : List String, acc.Nodup →
      (ks.foldl (fun acc k => if k ∈ acc then acc else acc ++ [k]) acc).Nodup := by
  induction ks with
  | nil => intro acc h; simpa
  | cons k ks ih =>
    intro acc h
    simp only [List.foldl_cons]
    by_cases hk : k ∈ acc
    · rw [if_pos hk]; exact ih acc h
    · rw [if_neg hk]
      exact ih _ (by simp [List.nodup_append, h, hk])

theorem firstApp_nodup (ks : List String) : (firstApp ks).Nodup :=
  firstApp_loop_nodup ks [] (by simp)

theorem firstApp_append_singleton (ks : List String) (k : String) :
    firstApp (ks ++ [k]) =
      if k ∈ firstApp ks then firstApp ks else firstApp ks ++ [k] := by
  unfold firstApp
  rw [List.foldl_append]
  rfl

/-! ## Characterization of insertion-ordered accumulation -/

theorem upsert_map_not_mem {β : Type} (g : String → β) (k : String) (v0 : β)
    (f : β → β) :
    ∀ keys : List String, k ∉ keys →
      upsert k v0 f (keys.map (fun k' => (k', g k'))) =
        keys.map (fun k' => (k', g k')) ++ [(k, v0)] := by
  intro keys
  induction keys with
  | nil => intro _; rfl
  | cons k0 keys ih =>
    intro hk
    simp only [List.map_cons]
    unfold upsert
    have hne : ¬(k0 = k) := by
      rintro rfl; exact hk (List.mem_cons_self _ _)
    rw [if_neg hne, ih (fun h => hk (List.mem_cons_of_mem _ h))]
    simp

theorem upsert_map_mem {β : Type} (g g' : String → β) (k : String) (v0 : β)
    (f : β → β) :
    ∀ keys : List String, keys.Nodup → k ∈ keys →
      (∀ k' ∈ keys, k' ≠ k → g' k' = g k') → g' k = f (g k) →
      upsert k v0 f (keys.map (fun k' => (k', g k'))) =
        keys.map (fun k' => (k', g' k')) := by
  intro keys
  induction keys with
  | nil => intro _ h; simp at h
  | cons k0 keys ih =>
    intro hnd hk hsame hupd
    have hnd' := List.nodup_cons.mp hnd
    simp only [List.map_cons]
    unfold upsert
    by_cases h0 : k0 = k
    · rw [if_pos h0]
      subst h0
      congr 1
      · rw [hupd]
      · apply List.map_congr_left
        intro k' hk'
        have : k' ≠ k0 := fun h => hnd'.1 (h ▸ hk')
        rw [hsame k' (List.mem_cons_of_mem _ hk') this]
    · rw [if_neg h0]
      have hk' : k ∈ keys := by
        rcases List.mem_cons.mp hk with h | h
        · exact absurd h.symm h0
        · exact h
      rw [ih hnd'.2 hk'
          (fun k' h1 h2 => hsame k' (List.mem_cons_of_mem _ h1) h2) hupd]
      rw [hsame k0 (List.mem_cons_self _ _) h0]

theorem accumBy_step {α β : Type} (key : α → String) (v0 : α → β)
    (f : α → β → β) (summary : List α → β)
    (h0 : ∀ x, v0 x = summary [x])
    (h1 : ∀ (x : α) (l : List α), f x (summary l) = summary (l ++ [x]))
    (p : List α) (x : α) :
    upsert (key x) (v0 x) (f x) (accumSpec key summary p) =
      accumSpec key summary (p ++ [x]) := by
  unfold accumSpec firstAppBy
  rw [List.map_append, List.map_singleton, firstApp_append_singleton]
  by_cases hmem : key x ∈ firstApp (p.map key)
  · rw [if_pos hmem]
    refine upsert_map_mem
      (fun k' => summary (p.filter (fun y => key y = k')))
      (fun k' => summary ((p ++ [x]).filter (fun y => key y = k')))
      (key x) (v0 x) (f x) (firstApp (p.map key))
      (firstApp_nodup _) hmem ?_ ?_
    · intro k' _ hne
      have hxx : key x ≠ k' := Ne.symm hne
      simp only [List.filter_append]
      have hnil : ([x].filter (fun y => decide (key y = k'))) = [] := by
        simp [hxx]
      rw [hnil, List.append_nil]
    · simp only [List.filter_append]
      rw [h1]
      refine congrArg summary ?_
      simp
  · rw [if_neg hmem]
    rw [upsert_map_not_mem (fun k' => summary (p.filter (fun y => key y = k')))
        (key x) (v0 x) (f x) (firstApp (p.map key)) hmem,
      List.map_append, List.map_singleton]
    congr 1
    · apply List.map_congr_left
      intro k' hk'
      have hne : key x ≠ k' := fun h => hmem (h ▸ hk')
      simp only [List.filter_append]
      have hnil : ([x].filter (fun y => decide (key y = k'))) = [] := by
        simp [hne]
      rw [hnil, List.append_nil]
    · have hfil : p.filter (fun y => decide (key y = key x)) = [] := by
        apply List.filter_eq_nil_iff.mpr
        intro y hy hkey
        exact hmem ((firstApp_mem _ _).mpr
          (List.mem_map.mpr ⟨y, hy, of_decide_eq_true hkey⟩))
      simp only [List.filter_append, hfil, List.nil_append]
      have hone : ([x].filter (fun y => decide (key y = key x))) = [x] := by simp
      rw [hone, ← h0]

theorem accumBy_loop {α β : Type} (key : α → String) (v0 : α → β)
    (f : α → β → β) (summary : List α → β)
    (h0 : ∀ x, v0 x = summary [x])
    (h1 : ∀ (x : α) (l : List α), f x (summary l) = summary (l ++ [x])) :
    ∀ rest p : List α,
      rest.foldl (fun acc x => upsert (key x) (v0 x) (f x) acc)
          (accumSpec key summary p) =
        accumSpec key summary (p ++ rest) := by
  intro rest
  induction rest with
  | nil => intro p; simp
  | cons x rest ih =>
    intro p
    simp only [List.foldl_cons]
    rw [accumBy_step key v0 f summary h0 h1 p x, ih (p ++ [x])]
    simp

theorem accumBy_eq_accumSpec {α β : Type} (key : α → String) (v0 : α → β)
    (f : α → β → β) (summary : List α → β)
    (h0 : ∀ x, v0 x = summary [x])
    (h1 : ∀ (x : α) (l : List α), f x (summary l) = summary (l ++ [x]))
    (xs : List α) :
    accumBy key v0 f xs = accumSpec key summary xs := by
  have h := accumBy_loop key v0 f summary h0 h1 xs []
  rw [List.nil_append] at h
  exact h

theorem buildBuckets_eq (items : List ArchiveItem) :
    buildBuckets items = accumSpec extract_concert_key (fun l => l) items :=
  accumBy_eq_accumSpec extract_concert_key (fun it => [it]) (fun it l => l ++ [it])
    (fun l => l) (fun _ => rfl) (fun _ _ => rfl) items

theorem venueCounts_eq (recs : List ArchiveItem) :
    venueCounts recs = accumSpec id List.length (usableVenues recs) :=
  accumBy_eq_accumSpec id (fun _ => 1) (fun _ c => c + 1) List.length
    (fun _ => rfl) (fun _ l => by simp) (usableVenues recs)

/-! ## Emission of one concert group -/

theorem emitConcert_spec (k : String) (recs : List ArchiveItem) :
    ((emitConcert k recs).isSome ↔ (recs ≠ [] ∧ goodKey k = true)) ∧
      ∀ g, emitConcert k recs = some g → g.concert_key = k ∧ g.members = recs := by
  rcases recs with _ | ⟨base, rest⟩
  · constructor
    · simp [emitConcert]
    · intro g hg
      exact absurd hg (by simp [emitConcert])
  · unfold emitConcert goodKey
    rcases hsp : pySplit '|' k with _ | ⟨a, _ | ⟨b, _ | ⟨c, t⟩⟩⟩
    · constructor
      · simp
      · intro g hg; simp at hg
    · constructor
      · simp
      · intro g hg; simp at hg
    · rcases hp : parseYMD b with _ | d
      · constructor
        · simp [hp]
        · intro g hg; simp [hp] at hg
      · constructor
        · simp [hp]
        · intro g hg
          simp only [hp] at hg
          rw [Option.some.injEq] at hg
          subst hg
          exact ⟨rfl, rfl⟩
    · constructor
      · simp
      · intro g hg; simp at hg

theorem emitConcert_of_goodKey (k : String) (recs : List ArchiveItem)
    (hg : goodKey k = true) (hne : recs ≠ []) :
    ∃ g, emitConcert k recs = some g ∧ g.concert_key = k ∧ g.members = recs := by
  obtain ⟨hiff, hfields⟩ := emitConcert_spec k recs
  obtain ⟨g, hsome⟩ := Option.isSome_iff_exists.mp (hiff.mpr ⟨hne, hg⟩)
  obtain ⟨h1, h2⟩ := hfields g hsome
  exact ⟨g, hsome, h1, h2⟩

theorem emitConcert_none_of_badKey (k : String) (recs : List ArchiveItem)
    (h : goodKey k = false) : emitConcert k recs = none := by
  obtain ⟨hiff, _⟩ := emitConcert_spec k recs
  rw [← Option.not_isSome_iff_eq_none]
  intro hsome
  have := (hiff.mp hsome).2
  rw [h] at this
  exact Bool.noConfusion this

theorem emitConcert_fields (k : String) (recs : List ArchiveItem)
    (g : ConcertGroup) (h : emitConcert k recs = some g) :
    g.concert_key = k ∧ g.members = recs ∧ goodKey k = true := by
  obtain ⟨hiff, hfields⟩ := emitConcert_spec k recs
  obtain ⟨h1, h2⟩ := hfields g h
  have hgood := (hiff.mp (by rw [h]; rfl)).2
  exact ⟨h1, h2, hgood⟩

/-! ## Characterization of `group_recordings_by_concert` -/

theorem mem_firstAppBy_iff {α : Type} (key : α → String) (xs : List α)
    (k : String) : k ∈ firstAppBy key xs ↔ ∃ x ∈ xs, key x = k := by
  unfold firstAppBy
  rw [firstApp_mem]
  simp [List.mem_map, eq_comm]

theorem bucket_ne_nil {α : Type} (key : α → String) (xs : List α) (k : String)
    (h : k ∈ firstAppBy key xs) : xs.filter (fun x => key x = k) ≠ [] := by
  obtain ⟨x, hx, hkey⟩ := (mem_firstAppBy_iff key xs k).mp h
  exact List.ne_nil_of_mem (List.mem_filter.mpr ⟨hx, by simp [hkey]⟩)

theorem group_eq_filterMap (items : List ArchiveItem) :
    group_recordings_by_concert items =
      (firstAppBy extract_concert_key items).filterMap
        (fun k =>
          emitConcert k (items.filter (fun it => extract_concert_key it = k))) := by
  unfold group_recordings_by_concert
  rw [buildBuckets_eq]
  unfold accumSpec
  rw [List.filterMap_map]
  rfl

theorem filterMap_emit_map_key (bucket : String → List ArchiveItem) :
    ∀ keys : List String, (∀ k ∈ keys, bucket k ≠ []) →
      ((keys.filterMap (fun k => emitConcert k (bucket k))).map
          ConcertGroup.concert_key)
        = keys.filter goodKey := by
  intro keys
  induction keys with
  | nil => intro _; rfl
  | cons k keys ih =>
    intro hne
    have hrest : ∀ k' ∈ keys, bucket k' ≠ [] :=
      fun k' h => hne k' (List.mem_cons_of_mem _ h)
    by_cases hg : goodKey k = true
    · obtain ⟨g, hsome, hkey, _⟩ :=
        emitConcert_of_goodKey k (bucket k) hg (hne k (List.mem_cons_self _ _))
      simp [List.filterMap_cons, hsome, hkey, List.filter_cons, hg, ih hrest]
    · have hbad : goodKey k = false := Bool.eq_false_iff.mpr hg
      simp [List.filterMap_cons, emitConcert_none_of_badKey k (bucket k) hbad,
        List.filter_cons, hbad, ih hrest]

theorem goodKey_date_unknown (a : String) :
    goodKey (a ++ "|" ++ "unknown") = false := by
  have hdata : (a ++ "|" ++ "unknown").data = a.data ++ '|' :: ("unknown").data := by
    simp [String.data_append]
  unfold goodKey pySplit
  rw [hdata, splitCh_append_sep]
  have hunk : splitCh '|' ("unknown").data = [("unknown").data] := by decide
  rw [hunk]
  rcases hs : splitCh '|' a.data with _ | ⟨p, _ | ⟨q, qs⟩⟩
  · exact absurd hs (splitCh_ne_nil _ _)
  · have : (parseYMD (String.mk ("unknown").data)).isSome = false := by decide
    simpa using this
  · simp

/-- Claim C1: `group_recordings_by_concert` places each recording in exactly
one output group — the groups are pairwise disjoint and are emitted in
first-appearance order of the identity key — and a recording is absent from
every output group exactly when its identity key is degenerate (`goodKey`
false: the key does not split into exactly two bar-separated parts, or its
date segment fails `YYYY-MM-DD` parsing at emission); in particular a
recording with no date gets the date segment `unknown` and its group is
dropped at emission, so it appears in no output group. -/
theorem grouping_partitions_recordings (items : List ArchiveItem) :
    (∀ it ∈ items, goodKey (extract_concert_key it) = true →
      ∃ g, g ∈ group_recordings_by_concert items ∧ it ∈ g.members ∧
        ∀ g', g' ∈ group_recordings_by_concert items → it ∈ g'.members → g' = g) ∧
    (∀ it ∈ items, goodKey (extract_concert_key it) = false →
      ∀ g ∈ group_recordings_by_concert items, it ∉ g.members) ∧
    ((group_recordings_by_concert items).map ConcertGroup.concert_key =
      (firstAppBy extract_concert_key items).filter goodKey) ∧
    ((group_recordings_by_concert items).Pairwise
      (fun g g' => ∀ it, it ∈ g.members → it ∉ g'.members)) ∧
    (∀ it ∈ items, it.date = none →
      extract_concert_key it = strOr it.artist "Unknown Artist" ++ "|" ++ "unknown" ∧
        ∀ g ∈ group_recordings_by_concert items, it ∉ g.members) := by
  have hchar : ∀ g, g ∈ group_recordings_by_concert items ↔
      ∃ k ∈ firstAppBy extract_concert_key items,
        emitConcert k (items.filter (fun it => extract_concert_key it = k)) = some g := by
    intro g
    rw [group_eq_filterMap]
    exact List.mem_filterMap
  have hfields : ∀ g ∈ group_recordings_by_concert items,
      g.concert_key ∈ firstAppBy extract_concert_key items ∧
        g.members = items.filter (fun it => extract_concert_key it = g.concert_key) ∧
        goodKey g.concert_key = true := by
    intro g hg
    obtain ⟨k, hk, hsome⟩ := (hchar g).mp hg
    obtain ⟨h1, h2, h3⟩ := emitConcert_fields _ _ _ hsome
    subst h1
    exact ⟨hk, h2, h3⟩
  have habsent : ∀ it ∈ items, goodKey (extract_concert_key it) = false →
      ∀ g ∈ group_recordings_by_concert items, it ∉ g.members := by
    intro it _ hbad g hg hmem
    obtain ⟨_, hmembers, hgood⟩ := hfields g hg
    rw [hmembers] at hmem
    have hkey : extract_concert_key it = g.concert_key :=
      of_decide_eq_true (List.mem_filter.mp hmem).2
    rw [hkey, hgood] at hbad
    exact Bool.noConfusion hbad
  refine ⟨?_, habsent, ?_, ?_, ?_⟩
  · intro it hit hgood
    have hk : extract_concert_key it ∈ firstAppBy extract_concert_key items :=
      (mem_firstAppBy_iff _ _ _).mpr ⟨it, hit, rfl⟩
    obtain ⟨g, hsome, hgkey, hgmem⟩ :=
      emitConcert_of_goodKey (extract_concert_key it)
        (items.filter (fun x => extract_concert_key x = extract_concert_key it))
        hgood (bucket_ne_nil _ _ _ hk)
    refine ⟨g, (hchar g).mpr ⟨_, hk, hsome⟩, ?_, ?_⟩
    · rw [hgmem]
      exact List.mem_filter.mpr ⟨hit, by simp⟩
    · intro g' hg' hmem'
      obtain ⟨_, hmembers', _⟩ := hfields g' hg'
      rw [hmembers'] at hmem'
      have hkey' : extract_concert_key it = g'.concert_key :=
        of_decide_eq_true (List.mem_filter.mp hmem').2
      obtain ⟨k', hk', hsome'⟩ := (hchar g').mp hg'
      have hck' : g'.concert_key = k' := (emitConcert_fields _ _ _ hsome').1
      rw [hck'] at hkey'
      rw [← hkey'] at hsome'
      rw [hsome] at hsome'
      exact (Option.some.injEq _ _ ▸ hsome').symm
  · rw [group_eq_filterMap]
    exact filterMap_emit_map_key _ _
      (fun k hk => bucket_ne_nil extract_concert_key items k hk)
  · rw [group_eq_filterMap]
    refine List.Pairwise.filterMap _ ?_ (firstApp_nodup _)
    intro k k' hne g hg g' hg' it hmemg hmemg'
    have h1 := (emitConcert_fields _ _ _ hg).2.1
    have h2 := (emitConcert_fields _ _ _ hg').2.1
    rw [h1] at hmemg
    rw [h2] at hmemg'
    have e1 : extract_concert_key it = k :=
      of_decide_eq_true (List.mem_filter.mp hmemg).2
    have e2 : extract_concert_key it = k' :=
      of_decide_eq_true (List.mem_filter.mp hmemg').2
    exact hne (e1 ▸ e2)
  · intro it hit hdate
    have hkeyeq : extract_concert_key it =
        strOr it.artist "Unknown Artist" ++ "|" ++ "unknown" := by
      unfold extract_concert_key
      rw [hdate]
    refine ⟨hkeyeq, ?_⟩
    apply habsent it hit
    rw [hkeyeq]
    exact goodKey_date_unknown _

/-! ## Venue resolution -/

theorem filter_length_eq_count (vs : List String) (v : String) :
    (vs.filter (fun x => x = v)).length = vs.count v := by
  induction vs with
  | nil => rfl
  | cons w vs ih =>
    by_cases h : w = v
    · simp [List.filter_cons, List.count_cons, h, ih]
    · simp [List.filter_cons, List.count_cons, h, ih]

theorem all_congr_mem (l1 l2 : List String) (h : ∀ x, x ∈ l1 ↔ x ∈ l2)
    (p : String → Bool) : l1.all p = l2.all p := by
  cases h1 : l1.all p with
  | true =>
    symm
    apply List.all_eq_true.mpr
    intro x hx
    exact List.all_eq_true.mp h1 x ((h x).mpr hx)
  | false =>
    symm
    apply Bool.eq_false_iff.mpr
    intro h2
    have hall : l1.all p = true :=
      List.all_eq_true.mpr (fun x hx => List.all_eq_true.mp h2 x ((h x).mp hx))
    rw [h1] at hall
    exact Bool.noConfusion hall

theorem maxByCount_loop (f : String → Nat) :
    ∀ (l : List String) (b : String),
      (l.map (fun v => (v, f v))).foldl
          (fun best p =>
            match best with
            | none => some p
            | some q => if p.2 > q.2 then some p else some q)
          (some (b, f b)) =
        some (pickMax f b l, f (pickMax f b l)) := by
  intro l
  induction l with
  | nil => intro b; rfl
  | cons v l ih =>
    intro b
    simp only [List.map_cons, List.foldl_cons]
    by_cases h : f v > f b
    · rw [if_pos h]
      rw [ih v]
      simp [pickMax, h]
    · rw [if_neg h]
      rw [ih b]
      simp [pickMax, h]

theorem maxByCount_map (f : String → Nat) (k0 : String) (rest : List String) :
    maxByCount ((k0 :: rest).map (fun v => (v, f v))) =
      some (pickMax f k0 rest) := by
  unfold maxByCount
  simp only [List.map_cons, List.foldl_cons]
  rw [maxByCount_loop f rest k0]

theorem find?_pickMax (f : String → Nat) :
    ∀ (l : List String) (b : String),
      (b :: l).find? (fun v => (b :: l).all (fun w => f w ≤ f v)) =
        some (pickMax f b l) := by
  intro l
  induction l with
  | nil =>
    intro b
    simp [pickMax]
  | cons v l ih =>
    intro b
    by_cases h : f b < f v
    · have hpm : pickMax f b (v :: l) = pickMax f v l := by
        simp [pickMax, h]
      rw [hpm]
      have hpred : (fun x => (b :: v :: l).all (fun w => f w ≤ f x)) =
          (fun x => (v :: l).all (fun w => f w ≤ f x)) := by
        funext x
        cases hx : (v :: l).all (fun w => decide (f w ≤ f x)) with
        | true =>
          have hv : f v ≤ f x :=
            of_decide_eq_true (List.all_eq_true.mp hx v (List.mem_cons_self _ _))
          apply List.all_eq_true.mpr
          intro w hw
          rcases List.mem_cons.mp hw with rfl | hw
          · exact decide_eq_true (le_of_lt (lt_of_lt_of_le h hv))
          · exact List.all_eq_true.mp hx w hw
        | false =>
          rw [List.all_cons, hx, Bool.and_false]
      rw [hpred]
      have hPb : ((v :: l).all (fun w => decide (f w ≤ f b))) = false := by
        apply Bool.eq_false_iff.mpr
        intro hall
        have := of_decide_eq_true
          (List.all_eq_true.mp hall v (List.mem_cons_self _ _))
        exact absurd h (not_lt.mpr this)
      simp only [List.find?_cons, hPb]
      exact ih v
    · have hvb : f v ≤ f b := not_lt.mp h
      have hpm : pickMax f b (v :: l) = pickMax f b l := by
        simp [pickMax, h]
      rw [hpm, ← ih b]
      have hpred : (fun x => (b :: v :: l).all (fun w => f w ≤ f x)) =
          (fun x => (b :: l).all (fun w => f w ≤ f x)) := by
        funext x
        by_cases hbx : f b ≤ f x
        · have hvx : f v ≤ f x := le_trans hvb hbx
          simp [List.all_cons, hbx, hvx]
        · simp [List.all_cons, hbx]
      rw [hpred]
      by_cases hPb : ((b :: l).all (fun w => decide (f w ≤ f b))) = true
      · simp only [List.find?_cons, hPb]
      · have hPbf := Bool.eq_false_iff.mpr hPb
        have hPv : ((b :: l).all (fun w => decide (f w ≤ f v))) = false := by
          apply Bool.eq_false_iff.mpr
          intro hall
          apply hPb
          apply List.all_eq_true.mpr
          intro w hw
          exact decide_eq_true
            (le_trans (of_decide_eq_true (List.all_eq_true.mp hall w hw)) hvb)
        simp only [List.find?_cons, hPbf, hPv]

/-- Claim C4: for every bucket of recordings the resolved venue is the
usable venue string (non-empty, not `"Unknown Venue"`) with the highest
occurrence count, ties broken by the first such venue in first-seen order
(`find?` over the insertion-ordered distinct venues), and `none` when no
recording has a usable venue; in particular venues `[A, B, A]` resolve to
`A`, and venues `[A, B]` (each once) resolve to `A`. -/
theorem venue_resolution_first_max (recs : List ArchiveItem) :
    (resolveVenue recs =
      (firstApp (usableVenues recs)).find?
        (fun v => (usableVenues recs).all
          (fun w => (usableVenues recs).count w ≤ (usableVenues recs).count v))) ∧
    resolveVenue [venueItem "r1" "A", venueItem "r2" "B", venueItem "r3" "A"] =
      some "A" ∧
    resolveVenue [venueItem "r1" "A", venueItem "r2" "B"] = some "A" := by
  refine ⟨?_, by decide, by decide⟩
  have hcounts : venueCounts recs =
      (firstApp (usableVenues recs)).map
        (fun v => (v, (usableVenues recs).count v)) := by
    rw [venueCounts_eq]
    unfold accumSpec firstAppBy
    simp only [List.map_id, id_eq]
    apply List.map_congr_left
    intro k _
    refine congrArg (Prod.mk k) ?_
    exact filter_length_eq_count (usableVenues recs) k
  by_cases hnil : usableVenues recs = []
  · rw [hnil] at hcounts
    have hvc : venueCounts recs = [] := by rw [hcounts]; rfl
    unfold resolveVenue firstUsableVenue
    rw [hvc, hnil]
    rfl
  · obtain ⟨v0, vtl, hv⟩ := List.exists_cons_of_ne_nil hnil
    obtain ⟨k0, krest, hks⟩ :
        ∃ k0 krest, firstApp (usableVenues recs) = k0 :: krest := by
      apply List.exists_cons_of_ne_nil
      intro hempty
      have hmem := (firstApp_mem (usableVenues recs) v0).mpr
        (by rw [hv]; exact List.mem_cons_self _ _)
      rw [hempty] at hmem
      simp at hmem
    rw [hks] at hcounts
    unfold resolveVenue
    rw [hcounts, maxByCount_map, hks]
    have hmemiff : ∀ x, x ∈ k0 :: krest ↔ x ∈ usableVenues recs := by
      intro x
      rw [← hks]
      exact firstApp_mem _ _
    have hpred : (fun v => (usableVenues recs).all
          (fun w => (usableVenues recs).count w ≤ (usableVenues recs).count v)) =
        (fun v => (k0 :: krest).all
          (fun w => (usableVenues recs).count w ≤ (usableVenues recs).count v)) := by
      funext v
      exact (all_congr_mem _ _ hmemiff _).symm
    rw [hpred, find?_pickMax]

/-! ## The cache -/

theorem lookup_storeCache (cache : Cache) (k : String) (e : CacheEntry) :
    lookupCache (storeCache cache k e) k = some e := by
  induction cache with
  | nil => simp [storeCache, lookupCache]
  | cons p rest ih =>
    by_cases h : p.1 = k
    · simp [storeCache, lookupCache, h]
    · simp [storeCache, lookupCache, h, ih]

theorem lookup_none_filter (P : String × CacheEntry → Bool) (k : String) :
    ∀ cache : Cache, lookupCache cache k = none →
      lookupCache (cache.filter P) k = none := by
  intro cache
  induction cache with
  | nil => intro h; exact h
  | cons p rest ih =>
    intro h
    have hne : ¬(p.1 = k) := by
      intro he
      rw [show lookupCache (p :: rest) k = some p.2 by
        simp [lookupCache, he]] at h
      exact Option.noConfusion h
    have htl : lookupCache rest k = none := by
      rw [show lookupCache (p :: rest) k = lookupCache rest k by
        simp [lookupCache, hne]] at h
      exact h
    rw [List.filter_cons]
    by_cases hp : P p = true
    · simp [hp, lookupCache, hne, ih htl]
    · simp [hp, ih htl]

theorem mem_fst_of_lookup_some (k : String) (e : CacheEntry) :
    ∀ cache : Cache, lookupCache cache k = some e → k ∈ cache.map Prod.fst := by
  intro cache
  induction cache with
  | nil => intro h; simp [lookupCache] at h
  | cons p rest ih =>
    intro h
    by_cases hp : p.1 = k
    · simp [hp]
    · rw [show lookupCache (p :: rest) k = lookupCache rest k by
        simp [lookupCache, hp]] at h
      exact List.mem_cons_of_mem _ (ih h)

theorem storeCache_mem_fst (k : String) (e : CacheEntry) (x : String) :
    ∀ cache : Cache, x ∈ (storeCache cache k e).map Prod.fst →
      x ∈ cache.map Prod.fst ∨ x = k := by
  intro cache
  induction cache with
  | nil =>
    intro h
    simp [storeCache] at h
    exact Or.inr h
  | cons p rest ih =>
    intro h
    by_cases hp : p.1 = k
    · rw [show storeCache (p :: rest) k e = (k, e) :: rest by
        simp [storeCache, hp]] at h
      simp only [List.map_cons, List.mem_cons] at h
      rcases h with rfl | hm
      · exact Or.inr rfl
      · exact Or.inl (List.mem_cons_of_mem _ hm)
    · rw [show storeCache (p :: rest) k e = p :: storeCache rest k e by
        simp [storeCache, hp]] at h
      simp only [List.map_cons, List.mem_cons] at h
      rcases h with rfl | hm
      · exact Or.inl (List.mem_cons_self _ _)
      · rcases ih hm with h1 | h2
        · exact Or.inl (List.mem_cons_of_mem _ h1)
        · exact Or.inr h2

theorem storeCache_nodup (k : String) (e : CacheEntry) :
    ∀ cache : Cache, (cache.map Prod.fst).Nodup →
      ((storeCache cache k e).map Prod.fst).Nodup := by
  intro cache
  induction cache with
  | nil => intro _; simp [storeCache]
  | cons p rest ih =>
    intro hnd
    rw [List.map_cons] at hnd
    have hnd' := List.nodup_cons.mp hnd
    by_cases h : p.1 = k
    · rw [show storeCache (p :: rest) k e = (k, e) :: rest by
        simp [storeCache, h]]
      simp only [List.map_cons]
      exact List.nodup_cons.mpr ⟨h ▸ hnd'.1, hnd'.2⟩
    · rw [show storeCache (p :: rest) k e = p :: storeCache rest k e by
        simp [storeCache, h]]
      simp only [List.map_cons]
      refine List.nodup_cons.mpr ⟨?_, ih hnd'.2⟩
      intro hmem
      rcases storeCache_mem_fst k e p.1 rest hmem with hmem' | heq
      · exact hnd'.1 hmem'
      · exact h heq

theorem lookup_cleanup_of_expired (now : Int) (k : String) (e : CacheEntry)
    (hexp : now - e.timestamp ≥ CACHE_DURATION) :
    ∀ cache : Cache, (cache.map Prod.fst).Nodup →
      lookupCache cache k = some e →
      lookupCache (cleanup_cache now cache) k = none := by
  intro cache
  induction cache with
  | nil => intro _ hlk; simp [lookupCache] at hlk
  | cons p rest ih =>
    intro hnd hlk
    rw [List.map_cons] at hnd
    have hnd' := List.nodup_cons.mp hnd
    by_cases h : p.1 = k
    · have hpe : p.2 = e := by
        rw [show lookupCache (p :: rest) k = some p.2 by
          simp [lookupCache, h]] at hlk
        exact (Option.some.injEq _ _ ▸ hlk)
      have hdrop : (!decide (now - p.2.timestamp ≥ CACHE_DURATION)) = false := by
        simp [hpe, hexp]
      unfold cleanup_cache
      rw [List.filter_cons, hdrop, if_neg Bool.false_ne_true]
      apply lookup_none_filter
      rcases hrest : lookupCache rest k with _ | e2
      · rfl
      · exfalso
        have hkmem : k ∈ rest.map Prod.fst :=
          mem_fst_of_lookup_some k e2 rest hrest
        rw [h] at hnd'
        exact hnd'.1 hkmem
    · have htl : lookupCache rest k = some e := by
        rw [show lookupCache (p :: rest) k = lookupCache rest k by
          simp [lookupCache, h]] at hlk
        exact hlk
      unfold cleanup_cache
      rw [List.filter_cons]
      by_cases hp : (!decide (now - p.2.timestamp ≥ CACHE_DURATION)) = true
      · rw [hp, if_pos rfl]
        rw [show lookupCache (p :: List.filter
              (fun q : String × CacheEntry =>
                !(now - q.2.timestamp ≥ CACHE_DURATION)) rest) k
            = lookupCache (List.filter
              (fun q : String × CacheEntry =>
                !(now - q.2.timestamp ≥ CACHE_DURATION)) rest) k by
          simp [lookupCache, h]]
        exact ih hnd'.2 htl
      · have hpf := Bool.eq_false_iff.mpr hp
        rw [hpf, if_neg Bool.false_ne_true]
        exact ih hnd'.2 htl

/-- Claim C5: after storing groups under fingerprint `F`, a lookup strictly
less than `CACHE_DURATION = 300` seconds after the store is valid and
returns exactly the stored entry, while a lookup 300 seconds or more after
the store finds the entry invalid (a cache miss) and the sweep
(`cleanup_cache`) removes it. -/
theorem cache_ttl_roundtrip (cache : Cache) (F : String)
    (data : List ConcertGroup) (raw : List ArchiveItem) (ts now : Int)
    (hnd : (cache.map Prod.fst).Nodup) :
    (now - ts < CACHE_DURATION →
      lookupCache (storeCache cache F ⟨data, ts, raw⟩) F = some ⟨data, ts, raw⟩ ∧
        is_cache_valid now (lookupCache (storeCache cache F ⟨data, ts, raw⟩) F)
          = true) ∧
    (now - ts ≥ CACHE_DURATION →
      is_cache_valid now (lookupCache (storeCache cache F ⟨data, ts, raw⟩) F)
          = false ∧
        lookupCache (cleanup_cache now (storeCache cache F ⟨data, ts, raw⟩)) F
          = none) := by
  have hstore := lookup_storeCache cache F ⟨data, ts, raw⟩
  have hndstore := storeCache_nodup F ⟨data, ts, raw⟩ cache hnd
  constructor
  · intro hlt
    refine ⟨hstore, ?_⟩
    rw [hstore]
    simp [is_cache_valid, hlt]
  · intro hge
    constructor
    · rw [hstore]
      simp [is_cache_valid, not_lt.mpr hge]
    · exact lookup_cleanup_of_expired now F ⟨data, ts, raw⟩ hge
        (storeCache cache F ⟨data, ts, raw⟩) hndstore hstore

/-- Witness for claim C5 at a concrete store and two concrete lookup
instants: a lookup 0 seconds after the store returns the stored entry, and
after the sweep at 400 seconds the entry is gone. -/
theorem cache_ttl_roundtrip_witness :
    lookupCache (storeCache [] "f" ⟨[], 0, []⟩) "f" = some ⟨[], 0, []⟩ ∧
      lookupCache (cleanup_cache 400 (storeCache [] "f" ⟨[], 0, []⟩)) "f"
        = none :=
  ⟨((cache_ttl_roundtrip [] "f" [] [] 0 0 (by simp)).1 (by decide)).1,
   ((cache_ttl_roundtrip [] "f" [] [] 0 400 (by simp)).2 (by decide)).2⟩

/-! ## Sorting -/

theorem pySortBy_perm {κ : Type} (le : κ → κ → Bool) (key : ConcertGroup → κ)
    (rev : Bool) (l : List ConcertGroup) : (pySortBy le key rev l).Perm l := by
  unfold pySortBy
  cases rev
  · rw [if_neg Bool.false_ne_true]
    exact List.perm_insertionSort _ l
  · rw [if_pos rfl]
    exact List.perm_insertionSort _ l

theorem pySortBy_sorted_asc {κ : Type} (le : κ → κ → Bool)
    (key : ConcertGroup → κ)
    (htot : ∀ x y, le x y = true ∨ le y x = true)
    (htr : ∀ x y z, le x y = true → le y z = true → le x z = true)
    (l : List ConcertGroup) :
    (pySortBy le key false l).Pairwise (fun a b => le (key a) (key b) = true) := by
  unfold pySortBy
  rw [if_neg Bool.false_ne_true]
  haveI : IsTotal ConcertGroup (fun a b => le (key a) (key b) = true) :=
    ⟨fun a b => htot (key a) (key b)⟩
  haveI : IsTrans ConcertGroup (fun a b => le (key a) (key b) = true) :=
    ⟨fun _ _ _ h1 h2 => htr _ _ _ h1 h2⟩
  exact List.sorted_insertionSort _ l

theorem pySortBy_sorted_desc {κ : Type} (le : κ → κ → Bool)
    (key : ConcertGroup → κ)
    (htot : ∀ x y, le x y = true ∨ le y x = true)
    (htr : ∀ x y z, le x y = true → le y z = true → le x z = true)
    (l : List ConcertGroup) :
    (pySortBy le key true l).Pairwise (fun a b => le (key b) (key a) = true) := by
  unfold pySortBy
  rw [if_pos rfl]
  haveI : IsTotal ConcertGroup (fun a b => le (key b) (key a) = true) :=
    ⟨fun a b => htot (key b) (key a)⟩
  haveI : IsTrans ConcertGroup (fun a b => le (key b) (key a) = true) :=
    ⟨fun _ _ _ h1 h2 => htr _ _ _ h2 h1⟩
  exact List.sorted_insertionSort _ l

theorem intLe_total (x y : Int) : decide (x ≤ y) = true ∨ decide (y ≤ x) = true := by
  rcases le_total x y with h | h
  · exact Or.inl (decide_eq_true h)
  · exact Or.inr (decide_eq_true h)

theorem intLe_trans (x y z : Int) (h1 : decide (x ≤ y) = true)
    (h2 : decide (y ≤ z) = true) : decide (x ≤ z) = true :=
  decide_eq_true (le_trans (of_decide_eq_true h1) (of_decide_eq_true h2))

theorem lexLe_total : ∀ a b : List Char, lexLe a b = true ∨ lexLe b a = true := by
  intro a
  induction a with
  | nil => intro b; exact Or.inl rfl
  | cons c cs ih =>
    intro b
    rcases b with _ | ⟨d, ds⟩
    · exact Or.inr rfl
    · by_cases h : c = d
      · subst h
        rcases ih ds with h1 | h1
        · exact Or.inl (by simp [lexLe, h1])
        · exact Or.inr (by simp [lexLe, h1])
      · rcases lt_or_gt_of_ne h with hlt | hgt
        · exact Or.inl (by simp [lexLe, h, hlt])
        · exact Or.inr (by simp [lexLe, Ne.symm h, hgt])

theorem lexLe_trans : ∀ a b c : List Char,
    lexLe a b = true → lexLe b c = true → lexLe a c = true := by
  intro a
  induction a with
  | nil => intro b c _ _; rfl
  | cons x xs ih =>
    intro b c h1 h2
    rcases b with _ | ⟨y, ys⟩
    · exact absurd h1 (by simp [lexLe])
    · rcases c with _ | ⟨z, zs⟩
      · exact absurd h2 (by simp [lexLe])
      · by_cases hxy : x = y
        · subst hxy
          by_cases hyz : x = z
          · subst hyz
            simp only [lexLe, if_pos rfl] at h1 h2 ⊢
            exact ih ys zs h1 h2
          · simp only [lexLe, if_pos rfl] at h1
            simp only [lexLe, if_neg hyz] at h2 ⊢
            exact h2
        · by_cases hyz : y = z
          · subst hyz
            simp only [lexLe, if_neg hxy] at h1 ⊢
            exact h1
          · simp only [lexLe, if_neg hxy] at h1
            simp only [lexLe, if_neg hyz] at h2
            have hxz : x < z := lt_trans (of_decide_eq_true h1) (of_decide_eq_true h2)
            have hne : ¬(x = z) := ne_of_lt hxz
            simp only [lexLe, if_neg hne]
            exact decide_eq_true hxz

theorem pyStrLe_total (a b : String) : pyStrLe a b = true ∨ pyStrLe b a = true :=
  lexLe_total a.data b.data

theorem pyStrLe_trans (a b c : String) (h1 : pyStrLe a b = true)
    (h2 : pyStrLe b c = true) : pyStrLe a c = true :=
  lexLe_trans a.data b.data c.data h1 h2

/-- Claim C6: the order returned by the listing path is by concert date
when `sort_by` is `date` or any unknown field, by lowercased artist when
`artist`, by lowercased venue (missing venue as the empty string) when
`venue` — ascending for `sort_order = "asc"`, descending for `"desc"` —
and each sort emits a permutation of its input; in particular artists
`["zebra", "Apple"]` sort ascending as `["Apple", "zebra"]`. -/
theorem browse_sorting_semantics (concerts : List ConcertGroup) (o : String) :
    ((sortConcerts "date" "asc" concerts).Perm concerts ∧
      (sortConcerts "date" "asc" concerts).Pairwise
        (fun a b => dateToSec a.date ≤ dateToSec b.date)) ∧
    ((sortConcerts "date" "desc" concerts).Perm concerts ∧
      (sortConcerts "date" "desc" concerts).Pairwise
        (fun a b => dateToSec b.date ≤ dateToSec a.date)) ∧
    ((sortConcerts "artist" "asc" concerts).Perm concerts ∧
      (sortConcerts "artist" "asc" concerts).Pairwise
        (fun a b => pyStrLe (pyLower a.artist) (pyLower b.artist) = true)) ∧
    ((sortConcerts "artist" "desc" concerts).Perm concerts ∧
      (sortConcerts "artist" "desc" concerts).Pairwise
        (fun a b => pyStrLe (pyLower b.artist) (pyLower a.artist) = true)) ∧
    ((sortConcerts "venue" "asc" concerts).Perm concerts ∧
      (sortConcerts "venue" "asc" concerts).Pairwise
        (fun a b =>
          pyStrLe (pyLower (a.venue.getD "")) (pyLower (b.venue.getD "")) = true)) ∧
    ((sortConcerts "venue" "desc" concerts).Perm concerts ∧
      (sortConcerts "venue" "desc" concerts).Pairwise
        (fun a b =>
          pyStrLe (pyLower (b.venue.getD "")) (pyLower (a.venue.getD "")) = true)) ∧
    (∀ f : String, f ≠ "date" → f ≠ "artist" → f ≠ "venue" →
      sortConcerts f o concerts = sortConcerts "date" o concerts) ∧
    (∀ g1 g2 : ConcertGroup, g1.artist = "zebra" → g2.artist = "Apple" →
      sortConcerts "artist" "asc" [g1, g2] = [g2, g1]) := by
  have hdec : ∀ x y : Int, decide (x ≤ y) = true ∨ decide (y ≤ x) = true :=
    intLe_total
  have hitr : ∀ x y z : Int, decide (x ≤ y) = true → decide (y ≤ z) = true →
      decide (x ≤ z) = true := intLe_trans
  have eda : sortConcerts "date" "asc" concerts =
      pySortBy (fun a b : Int => a ≤ b) (fun c => dateToSec c.date)
        false concerts := rfl
  have edd : sortConcerts "date" "desc" concerts =
      pySortBy (fun a b : Int => a ≤ b) (fun c => dateToSec c.date)
        true concerts := rfl
  have eaa : sortConcerts "artist" "asc" concerts =
      pySortBy pyStrLe (fun c => pyLower c.artist) false concerts := rfl
  have ead : sortConcerts "artist" "desc" concerts =
      pySortBy pyStrLe (fun c => pyLower c.artist) true concerts := rfl
  have eva : sortConcerts "venue" "asc" concerts =
      pySortBy pyStrLe (fun c => pyLower (c.venue.getD "")) false concerts := rfl
  have evd : sortConcerts "venue" "desc" concerts =
      pySortBy pyStrLe (fun c => pyLower (c.venue.getD "")) true concerts := rfl
  refine ⟨⟨?_, ?_⟩, ⟨?_, ?_⟩, ⟨?_, ?_⟩, ⟨?_, ?_⟩, ⟨?_, ?_⟩, ⟨?_, ?_⟩, ?_, ?_⟩
  · rw [eda]; exact pySortBy_perm _ _ _ _
  · rw [eda]
    have h := pySortBy_sorted_asc (fun a b : Int => decide (a ≤ b))
      (fun c => dateToSec c.date) hdec hitr concerts
    exact h.imp (fun hab => of_decide_eq_true hab)
  · rw [edd]; exact pySortBy_perm _ _ _ _
  · rw [edd]
    have h := pySortBy_sorted_desc (fun a b : Int => decide (a ≤ b))
      (fun c => dateToSec c.date) hdec hitr concerts
    exact h.imp (fun hab => of_decide_eq_true hab)
  · rw [eaa]; exact pySortBy_perm _ _ _ _
  · rw [eaa]
    exact pySortBy_sorted_asc pyStrLe (fun c => pyLower c.artist)
      pyStrLe_total pyStrLe_trans concerts
  · rw [ead]; exact pySortBy_perm _ _ _ _
  · rw [ead]
    exact pySortBy_sorted_desc pyStrLe (fun c => pyLower c.artist)
      pyStrLe_total pyStrLe_trans concerts
  · rw [eva]; exact pySortBy_perm _ _ _ _
  · rw [eva]
    exact pySortBy_sorted_asc pyStrLe (fun c => pyLower (c.venue.getD ""))
      pyStrLe_total pyStrLe_trans concerts
  · rw [evd]; exact pySortBy_perm _ _ _ _
  · rw [evd]
    exact pySortBy_sorted_desc pyStrLe (fun c => pyLower (c.venue.getD ""))
      pyStrLe_total pyStrLe_trans concerts
  · intro f h1 h2 h3
    unfold sortConcerts
    rw [if_neg h1, if_neg h2, if_neg h3, if_pos rfl]
  · intro g1 g2 h1 h2
    have hneg : ¬(pyStrLe (pyLower g1.artist) (pyLower g2.artist) = true) := by
      rw [h1, h2]; decide
    show List.insertionSort
        (fun a b => pyStrLe (pyLower a.artist) (pyLower b.artist) = true)
        [g1, g2] = [g2, g1]
    simp [List.insertionSort, List.orderedInsert, hneg]

/-! ## Pagination -/

theorem sortConcerts_perm (f o : String) (cs : List ConcertGroup) :
    (sortConcerts f o cs).Perm cs := by
  unfold sortConcerts
  split_ifs <;> exact pySortBy_perm _ _ _ _

/-- Claim C7: for every group list, page at least 1 and page size in
1..100, the listing response holds the slice
`[(page-1)*page_size : (page-1)*page_size + page_size]` of the sorted
list, `total` is the pre-pagination count, and `total_pages` is the
ceiling of `total / page_size` (stated by the closed formula and by its
Galois characterization); with 25 groups, `page = 2` and `per_page = 10`
the response holds the groups at zero-based indices 10..19 and
`total_pages = 3`. -/
theorem browse_pagination (concerts : List ConcertGroup)
    (page per_page : Nat) (sort_by sort_order : String)
    (hpage : 1 ≤ page) (hpp1 : 1 ≤ per_page) (hpp2 : per_page ≤ 100) :
    (assembleResponse page per_page sort_by sort_order concerts).results =
      ((sortConcerts sort_by sort_order concerts).drop
        ((page - 1) * per_page)).take per_page ∧
    (assembleResponse page per_page sort_by sort_order concerts).total =
      concerts.length ∧
    (assembleResponse page per_page sort_by sort_order concerts).page = page ∧
    (assembleResponse page per_page sort_by sort_order concerts).per_page =
      per_page ∧
    (assembleResponse page per_page sort_by sort_order concerts).total_pages =
      (concerts.length + per_page - 1) / per_page ∧
    (∀ m : Nat,
      (assembleResponse page per_page sort_by sort_order concerts).total_pages
          ≤ m ↔ concerts.length ≤ m * per_page) ∧
    (concerts.length = 25 → page = 2 → per_page = 10 →
      (assembleResponse page per_page sort_by sort_order concerts).results =
        ((sortConcerts sort_by sort_order concerts).drop 10).take 10 ∧
      (assembleResponse page per_page sort_by sort_order concerts).total_pages
        = 3) := by
  have hlen : (sortConcerts sort_by sort_order concerts).length =
      concerts.length := (sortConcerts_perm _ _ _).length_eq
  refine ⟨rfl, hlen, rfl, rfl, ?_, ?_, ?_⟩
  · show ((sortConcerts sort_by sort_order concerts).length + per_page - 1)
        / per_page = (concerts.length + per_page - 1) / per_page
    rw [hlen]
  · intro m
    show ((sortConcerts sort_by sort_order concerts).length + per_page - 1)
        / per_page ≤ m ↔ concerts.length ≤ m * per_page
    rw [hlen, Nat.div_le_iff_le_mul_add_pred (by omega)]
    constructor
    · intro h
      have := Nat.mul_comm per_page m
      omega
    · intro h
      have := Nat.mul_comm per_page m
      omega
  · intro h25 hp2 hpp10
    subst hp2
    subst hpp10
    constructor
    · rfl
    · show ((sortConcerts sort_by sort_order concerts).length + 10 - 1) / 10 = 3
      rw [hlen, h25]

/-- Witness for claim C7: 25 identical groups, page 2 of size 10. -/
theorem browse_pagination_witness :
    (assembleResponse 2 10 "date" "asc" (List.replicate 25 sampleGroup)).results
        = ((sortConcerts "date" "asc"
            (List.replicate 25 sampleGroup)).drop 10).take 10 ∧
      (assembleResponse 2 10 "date" "asc"
        (List.replicate 25 sampleGroup)).total_pages = 3 := by
  have h := browse_pagination (List.replicate 25 sampleGroup) 2 10 "date" "asc"
    (by decide) (by decide) (by decide)
  exact h.2.2.2.2.2.2 (by simp) rfl rfl

/-! ## The detail path -/

/-- Claim C8: a detail-lookup key that does not split into exactly two
bar-delimited parts and matches no concert in a valid cache entry fails
with the 400 malformed-identity error, and no upstream fetch is issued
(the second component is `false`, and the result does not depend on the
fetch oracle). -/
theorem detail_malformed_key_no_fetch (cache : Cache) (now : Int)
    (key : String) (fetch : FetchResult)
    (hmiss : findInCache cache now key = none)
    (hsplit : (pySplit '|' key).length ≠ 2) :
    get_concert_details cache now key fetch =
      (.error ⟨400, "Invalid concert key format"⟩, false) := by
  unfold get_concert_details
  rw [hmiss]
  rcases hsp : pySplit '|' key with _ | ⟨a, _ | ⟨b, _ | ⟨c, t⟩⟩⟩
  · rfl
  · rfl
  · exact absurd (show (pySplit '|' key).length = 2 by rw [hsp]; rfl) hsplit
  · rfl

/-- Witness for claim C8 at the concrete key `only-one-part` and an empty
cache. -/
theorem detail_malformed_key_no_fetch_witness :
    get_concert_details [] 0 "only-one-part" (.ok []) =
      (.error ⟨400, "Invalid concert key format"⟩, false) :=
  detail_malformed_key_no_fetch [] 0 "only-one-part" (.ok []) rfl (by decide)

/-- Claim C10: a detail-lookup key that splits into exactly two parts but
whose date segment is not a valid `YYYY-MM-DD` string, and that matches no
concert in a valid cache entry, causes the upstream fetch to be issued
first (the flag is `true` for every fetch outcome) and, when the fetch
succeeds, fails only afterwards with the 400 invalid-date-format error —
even though no fetch result could ever satisfy the request. -/
theorem detail_invalid_date_fetches_first (cache : Cache) (now : Int)
    (key : String) (a b : String) (items : List ArchiveItem)
    (hmiss : findInCache cache now key = none)
    (hsplit : pySplit '|' key = [a, b])
    (hdate : parseYMD b = none) :
    get_concert_details cache now key (.ok items) =
      (.error ⟨400, "Invalid date format"⟩, true) ∧
    ∀ fetch : FetchResult, (get_concert_details cache now key fetch).2 = true := by
  constructor
  · unfold get_concert_details
    rw [hmiss, hsplit]
    simp [hdate]
  · intro fetch
    unfold get_concert_details
    rw [hmiss, hsplit]
    rcases fetch with items' | _ | _
    · simp [hdate]
    · rfl
    · rfl

/-- Witness for claim C10 at the concrete key `Phish|unknown` and an empty
cache. -/
theorem detail_invalid_date_fetches_first_witness :
    get_concert_details [] 0 "Phish|unknown" (.ok []) =
      (.error ⟨400, "Invalid date format"⟩, true) :=
  (detail_invalid_date_fetches_first [] 0 "Phish|unknown" "Phish" "unknown" []
    rfl (by decide) (by decide)).1

/-! ## Cache fingerprints and the hit path -/

/-- Claim C9: two listing requests identical except for
`filter_by_concert_date` normalize to the same parameter dict and the same
cache fingerprint, and so address the same cache entry; any request whose
fingerprint has a valid entry is served that entry's stored payload,
whichever request populated it. -/
theorem fingerprint_ignores_concert_date_flag (r1 r2 : BrowseRequest)
    (hq : r1.query = r2.query) (hd : r1.date_range = r2.date_range)
    (ha : r1.artist = r2.artist) (hv : r1.venue = r2.venue)
    (hp : r1.page = r2.page) (hpp : r1.per_page = r2.per_page)
    (hs : r1.sort_by = r2.sort_by) (hso : r1.sort_order = r2.sort_order) :
    buildParams r1 = buildParams r2 ∧
    get_cache_key (buildParams r1) = get_cache_key (buildParams r2) ∧
    ∀ (cache : Cache) (now : Int) (e : CacheEntry) (fetch : FetchResult),
      lookupCache cache (get_cache_key (buildParams r2)) = some e →
      is_cache_valid now (some e) = true →
      browse_concerts cache now r2 fetch =
        .ok (assembleResponse r2.page r2.per_page r2.sort_by r2.sort_order
              e.data, cache) := by
  have hbp : buildParams r1 = buildParams r2 := by
    unfold buildParams
    rw [hq, hd, ha, hv, hp, hpp, hs, hso]
  refine ⟨hbp, by rw [hbp], ?_⟩
  intro cache now e fetch hlk hvalid
  simp only [browse_concerts]
  rw [hlk]
  simp [hvalid]

/-- Witness for claim C9: the two concrete requests differing only in the
flag produce the same fingerprint. -/
theorem fingerprint_ignores_concert_date_flag_witness :
    get_cache_key (buildParams reqC2) = get_cache_key (buildParams reqC2off) :=
  (fingerprint_ignores_concert_date_flag reqC2 reqC2off
    rfl rfl rfl rfl rfl rfl rfl rfl).2.1

/-! ## Upstream failure handling -/

/-- Counterexample to claim C3 as stated: an upstream timeout on the
listing path is caught by the generic `except Exception` handler and
surfaced as the 500 internal error — byte-identical to the condition used
for any other unexpected failure, not a service-unavailable condition —
and on the detail path even a non-2xx response is surfaced as 500. -/
theorem upstream_error_counterexample :
    browse_concerts [] 0 {} .timeoutError =
      .error ⟨500, "Failed to aggregate concerts"⟩ ∧
    get_concert_details [] 0 "Phish|1995-08-16" .statusError =
      (.error ⟨500, "Failed to get concert details"⟩, true) ∧
    ¬(browse_concerts [] 0 {} .timeoutError =
        .error ⟨502, "Browse service unavailable"⟩) := by
  refine ⟨rfl, rfl, ?_⟩
  intro h
  rw [show browse_concerts [] 0 {} .timeoutError =
      .error ⟨500, "Failed to aggregate concerts"⟩ from rfl] at h
  simp at h

/-- Claim C3 (amended): on the listing path a non-2xx upstream response
(`httpx.HTTPStatusError` from `raise_for_status`) is surfaced as the 502
service-unavailable condition, distinguishable from the 500 internal
error, but an upstream timeout falls through to the generic handler and is
surfaced as 500; on the detail path both failure kinds are surfaced as the
500 internal error. -/
theorem upstream_error_statuses (cache : Cache) (now : Int)
    (req : BrowseRequest)
    (hmiss : is_cache_valid now
      (lookupCache cache (get_cache_key (buildParams req))) = false) :
    browse_concerts cache now req .statusError =
      .error ⟨502, "Browse service unavailable"⟩ ∧
    browse_concerts cache now req .timeoutError =
      .error ⟨500, "Failed to aggregate concerts"⟩ ∧
    ∀ (key : String) (a b : String),
      findInCache cache now key = none → pySplit '|' key = [a, b] →
      (get_concert_details cache now key .statusError).1 =
          .error ⟨500, "Failed to get concert details"⟩ ∧
        (get_concert_details cache now key .timeoutError).1 =
          .error ⟨500, "Failed to get concert details"⟩ := by
  have hbrowse : ∀ fetch : FetchResult,
      browse_concerts cache now req fetch =
        browseFetchPath cache now req (get_cache_key (buildParams req)) fetch := by
    intro fetch
    simp only [browse_concerts]
    rcases hlk : lookupCache cache (get_cache_key (buildParams req)) with _ | e
    · rfl
    · rw [hlk] at hmiss
      simp [hmiss]
  refine ⟨?_, ?_, ?_⟩
  · rw [hbrowse]; rfl
  · rw [hbrowse]; rfl
  · intro key a b hfind hsplit
    constructor
    · unfold get_concert_details
      rw [hfind, hsplit]
    · unfold get_concert_details
      rw [hfind, hsplit]

/-- Witness for claim C3 (amended) at an empty cache and a default
request. -/
theorem upstream_error_statuses_witness :
    browse_concerts [] 0 {} .statusError =
      .error ⟨502, "Browse service unavailable"⟩ ∧
    browse_concerts [] 0 {} .timeoutError =
      .error ⟨500, "Failed to aggregate concerts"⟩ :=
  ⟨(upstream_error_statuses [] 0 {} rfl).1,
   (upstream_error_statuses [] 0 {} rfl).2.1⟩

/-! ## The concert-date filter -/

/-- Counterexample to claim C2 as stated: the request `reqC2` has the
concert-date filter flag set and the range token `30d`, yet — served from
a valid cache hit whose entry was stored unfiltered (as a flag-unset
request with the same fingerprint stores it) — its returned page contains
a group dated 1990-01-01, far outside `[now − 30d, now]`.  The cached list
is reused without re-filtering on the hit path. -/
theorem concert_date_filter_counterexample :
    reqC2.filter_by_concert_date = true ∧
    reqC2.date_range = some "30d" ∧
    is_cache_valid nowC2
      (lookupCache cacheC2 (get_cache_key (buildParams reqC2))) = true ∧
    browse_concerts cacheC2 nowC2 reqC2 (.ok []) =
      .ok (assembleResponse 1 20 "date" "desc" [oldGroup], cacheC2) ∧
    oldGroup ∈ (assembleResponse 1 20 "date" "desc" [oldGroup]).results ∧
    ¬(nowC2 - rangeDays "30d" * 86400 ≤ dateToSec oldGroup.date ∧
        dateToSec oldGroup.date ≤ nowC2) := by
  refine ⟨rfl, rfl, by decide, rfl, by decide, by decide⟩

/-- Claim C2 (amended): for every listing request in which
`filter_by_concert_date` is set and a non-empty `date_range` token is
supplied, and which is served by a fresh fetch (no valid cache entry for
its fingerprint), every group in the returned page has a concert date
within `[now − range, now]`, where a token outside `{7d, 30d, 90d, 1y}`
defaults to 30 days; on a cache hit the stored list is returned without
re-filtering, so the window bound is not guaranteed there (see the
counterexample). -/
theorem concert_date_filter_fresh_fetch (cache : Cache) (now : Int)
    (req : BrowseRequest) (items : List ArchiveItem) (t : String)
    (resp : BrowseResponse) (c2 : Cache)
    (hmiss : is_cache_valid now
      (lookupCache cache (get_cache_key (buildParams req))) = false)
    (hdr : req.date_range = some t) (ht : t ≠ "")
    (hflag : req.filter_by_concert_date = true)
    (hok : browse_concerts cache now req (.ok items) = .ok (resp, c2)) :
    (∀ g ∈ resp.results,
      now - rangeDays t * 86400 ≤ dateToSec g.date ∧ dateToSec g.date ≤ now) ∧
    ∀ s : String, s ≠ "7d" → s ≠ "30d" → s ≠ "90d" → s ≠ "1y" →
      rangeDays s = 30 := by
  constructor
  · have hpath : browse_concerts cache now req (.ok items) =
        browseFetchPath cache now req (get_cache_key (buildParams req))
          (.ok items) := by
      simp only [browse_concerts]
      rcases hlk : lookupCache cache (get_cache_key (buildParams req)) with _ | e
      · rfl
      · rw [hlk] at hmiss
        simp [hmiss]
    rw [hpath] at hok
    simp only [browseFetchPath, hdr] at hok
    rw [if_pos ⟨ht, hflag⟩] at hok
    have hresp : resp = assembleResponse req.page req.per_page req.sort_by
        req.sort_order
        (filterByConcertDate now t (group_recordings_by_concert items)) := by
      cases hok
      rfl
    intro g hg
    rw [hresp] at hg
    have hg1 : g ∈ sortConcerts req.sort_by req.sort_order
        (filterByConcertDate now t (group_recordings_by_concert items)) :=
      List.mem_of_mem_drop (List.mem_of_mem_take hg)
    have hg2 : g ∈ filterByConcertDate now t (group_recordings_by_concert items) :=
      ((sortConcerts_perm _ _ _).mem_iff).mp hg1
    unfold filterByConcertDate at hg2
    have hpred := (List.mem_filter.mp hg2).2
    rw [Bool.and_eq_true] at hpred
    exact ⟨of_decide_eq_true hpred.1, of_decide_eq_true hpred.2⟩
  · intro s h1 h2 h3 h4
    unfold rangeDays
    rw [if_neg h1, if_neg h2, if_neg h3, if_neg h4]

/-- Witness for claim C2 (amended): a fresh fetch for `reqC2` over one
recording dated 2023-12-20 discharges every hypothesis, and an unknown
token defaults to 30 days. -/
theorem concert_date_filter_fresh_fetch_witness :
    rangeDays "6m" = 30 :=
  (concert_date_filter_fresh_fetch [] nowC2 reqC2 [itemC2] "30d"
    (assembleResponse 1 20 "date" "desc"
      (filterByConcertDate nowC2 "30d" (group_recordings_by_concert [itemC2])))
    (cleanup_cache nowC2 (storeCache [] (get_cache_key (buildParams reqC2))
      ⟨filterByConcertDate nowC2 "30d" (group_recordings_by_concert [itemC2]),
        nowC2, [itemC2]⟩))
    rfl rfl (by decide) rfl rfl).2 "6m" (by decide) (by decide) (by decide)
    (by decide)

end SetScrape
